import Mathlib

/-!
Shallow embedding of the Cold Clear bot scheduler (`bot/src/lib.rs`):
the worker loop `run` with its budget-coupled command intake, commit
attempt and growth phases, and the host-side `Interface` façade with its
sticky `dead` flag. The external collaborators of the scheduler (the
decision tree `crate::tree::Tree`, `libtetris::Board`, the evaluator)
are not part of this file's source; they are modelled by the contracts
the spec states for them, as a parametrized operations record.
Channels are modelled by finite arrival traces.
-/

namespace ColdClear

/-- The seven tetromino identities (`libtetris::Piece`, external to the
crate; only the identity matters to the scheduler). -/
inductive Piece
  | I | O | T | L | J | S | Z
deriving DecidableEq

/-- A playfield cell grid (`[[bool; 10]; 40]`), as row lists of booleans. -/
abbrev Field := List (List Bool)

/-- Modelled from the spec: the board snapshot type (§6) — "fixed-size
cell grid, back-to-back flag, combo counter, next-piece queue with a
query for remaining known count" — plus the hold slot; `libtetris::Board`
is external to the crate. -/
structure Board where
  field : Field
  b2b_bonus : Bool
  combo : Nat
  next_pieces : List Piece
  hold_piece : Option Piece
deriving DecidableEq

/-- `Board::set_field`: overwrite the cell grid; the queue, hold slot and
counters are untouched. -/
def Board.set_field (b : Board) (f : Field) : Board :=
  { b with field := f }

/-- `Board::next_queue()`: the known future pieces, in order. -/
def Board.next_queue (b : Board) : List Piece :=
  b.next_pieces

/-- Modelled from the spec: the enumerated movement-generation mode
(`crate::moves::MovementMode`), opaque to the scheduler. -/
inductive MovementMode
  | ZeroG
  | TwentyG
deriving DecidableEq

/-- `Options` (lines 16–23): the immutable configuration bundle. -/
structure Options where
  mode : MovementMode
  use_hold : Bool
  speculate : Bool
  min_nodes : Nat
  max_nodes : Nat
deriving DecidableEq

/-- Modelled from the spec: one low-level controller input, opaque here. -/
abbrev Input := Nat

/-- Modelled from the spec: an expected piece resting location, opaque
here. -/
abbrev Location := Nat

/-- `crate::moves::Move` as the scheduler uses it (lines 235–239): hold
flag, input path, expected resting location. -/
structure Move where
  hold : Bool
  inputs : List Input
  expected_location : Location
deriving DecidableEq

/-- Evaluator diagnostics (`libtetris::Info`): ordered label/value pairs. -/
abbrev Info := List (String × Option String)

/-- `BotMsg` (lines 161–170): commands on the Control Channel. -/
inductive BotMsg
  | Reset (field : Field) (b2b : Bool) (combo : Nat)
  | NewPiece (piece : Piece)
  | NextMove
  | PrepareNextMove
deriving DecidableEq

/-- `BotResult` (lines 172–176): results on the Result Channel. -/
inductive BotResult
  | Move (mv : Move)
  | BotInfo (info : Info)
deriving DecidableEq

/-- The move candidate stored in a tree child (`child.mv`), with its
input path and resting location. -/
structure MoveCand where
  inputs : List Input
  location : Location
deriving DecidableEq

/-- A best child extracted from the tree: hold flag, move candidate, and
the child's own subtree. -/
structure Child (T : Type) where
  hold : Bool
  mv : MoveCand
  tree : T
deriving DecidableEq

/-- Modelled from the spec: the Decision Structure contract (§6) —
`crate::tree::Tree` is external to this file, so its operations are a
parameter. `into_best_child` returns `.ok child` (Ready) or gives the
tree back as `.error` (NotReady); `add_next_piece` and `extend` return
`true` in the first component when only death is possible. `depth` and
`evaluation` are the fields read for diagnostics. -/
structure TreeOps (T : Type) where
  new : Board → T
  child_nodes : T → Nat
  board : T → Board
  add_next_piece : T → Piece → Bool × T
  extend : Options → T → Bool × T
  into_best_child : T → Except T (Child T)
  depth : T → Nat
  evaluation : T → Int

/-- The worker's view of the Control Channel: a finite arrival trace.
`some m` is a queued command, `none` a moment at which the queue is
still empty; the end of the trace is the sender having been dropped
(channel permanently closed). -/
abbrev CtrlTrace := List (Option BotMsg)

/-- `std::sync::mpsc` receive outcomes as seen by the worker loop. -/
inductive RecvResult
  | Ok (msg : BotMsg)
  | Empty
  | Disconnected
deriving DecidableEq

/-- `Receiver::try_recv`: non-blocking receive over the arrival trace. -/
def try_recv : CtrlTrace → RecvResult × CtrlTrace
  | [] => (.Disconnected, [])
  | none :: rest => (.Empty, rest)
  | some m :: rest => (.Ok m, rest)

/-- `Receiver::recv` with `map_err(|_| TryRecvError::Disconnected)`
(line 203): blocking receive, which waits through empty moments until a
command arrives or the channel closes. -/
def recv_blocking : CtrlTrace → RecvResult × CtrlTrace
  | [] => (.Disconnected, [])
  | none :: rest => recv_blocking rest
  | some m :: rest => (.Ok m, rest)

/-- The worker loop's mutable state: the tree and the pending `do_move`
flag (line 198). -/
structure LoopState (T : Type) where
  tree : T
  do_move : Bool
deriving DecidableEq

/-- Why the worker loop exited. -/
inductive ExitReason
  | chanClosed
  | deathOnPiece
  | deathOnGrowth
  | sendFailed
deriving DecidableEq

/-- Outcome of applying one received command (`match result` block). -/
inductive ApplyOut (T : Type)
  | cont (s : LoopState T)
  | exit (r : ExitReason)
deriving DecidableEq

/-- Outcome of the commit attempt. -/
inductive CommitOut (T : Type)
  | cont (s : LoopState T) (out : List BotResult)
  | exit (out : List BotResult)
deriving DecidableEq

/-- Outcome of the growth phase. -/
inductive GrowthOut (T : Type)
  | cont (t : T)
  | exit
deriving DecidableEq

/-- Outcome of one whole loop iteration. -/
inductive StepOut (T : Type)
  | cont (s : LoopState T) (rest : CtrlTrace) (out : List BotResult)
  | exit (r : ExitReason) (out : List BotResult)
deriving DecidableEq

/-- The results emitted during one iteration. -/
def StepOut.output {T : Type} : StepOut T → List BotResult
  | .cont _ _ out => out
  | .exit _ out => out

/-- Whether the iteration ended the loop. -/
def StepOut.isExit {T : Type} : StepOut T → Bool
  | .cont _ _ _ => false
  | .exit _ _ => true

/-- The results emitted by a commit attempt. -/
def CommitOut.output {T : Type} : CommitOut T → List BotResult
  | .cont _ out => out
  | .exit out => out

/-- Whether the commit attempt ended the loop (a send failed). -/
def CommitOut.isExit {T : Type} : CommitOut T → Bool
  | .cont _ _ => false
  | .exit _ => true

/-- Whether command application ended the loop. -/
def ApplyOut.isExit {T : Type} : ApplyOut T → Bool
  | .cont _ => false
  | .exit _ => true

/-- Lines 200–204: the command intake — `try_recv` while strictly below
the node ceiling, blocking `recv` at or above it. -/
def intake {T : Type} (ops : TreeOps T) (opts : Options) (t : T)
    (tr : CtrlTrace) : RecvResult × CtrlTrace :=
  if ops.child_nodes t < opts.max_nodes then try_recv tr else recv_blocking tr

/-- Lines 215–218: the board the reset handler derives from the current
tree's board — field, combo and back-to-back flag overwritten, in that
order. -/
def resetBoard (b : Board) (f : Field) (b2b : Bool) (combo : Nat) : Board :=
  let board := b.set_field f
  let board := { board with combo := combo }
  { board with b2b_bonus := b2b }

/-- Lines 205–228: apply the received command to the loop state. -/
def applyMsg {T : Type} (ops : TreeOps T) (s : LoopState T) :
    RecvResult → ApplyOut T
  | .Empty => .cont s
  | .Disconnected => .exit .chanClosed
  | .Ok (.NewPiece p) =>
      let r := ops.add_next_piece s.tree p
      if r.1 then .exit .deathOnPiece else .cont { s with tree := r.2 }
  | .Ok (.Reset f b2b combo) =>
      .cont { s with tree := ops.new (resetBoard (ops.board s.tree) f b2b combo) }
  | .Ok .NextMove => .cont { s with do_move := true }
  | .Ok .PrepareNextMove => .cont s

/-- Lines 242–250: the diagnostics sent after a committed move. -/
def commitInfo (evalInfo : Info) (depth : Nat) (ev : Int)
    (moves_considered : Nat) : Info :=
  (("Cold Clear", none) :: evalInfo) ++
    [("Depth", some (toString depth)),
     ("Evaluation", some ""),
     ("", some (toString ev)),
     ("Nodes", some ""),
     ("", some (toString moves_considered))]

/-- Lines 230–258: the commit attempt. `sendOk` models whether the
Result Channel's receiver is still connected while this iteration runs;
a failed send delivers nothing and makes the loop return. -/
def commitAttempt {T : Type} (ops : TreeOps T) (opts : Options)
    (evalInfo : Info) (sendOk : Bool) (s : LoopState T) : CommitOut T :=
  if s.do_move = true ∧ opts.min_nodes < ops.child_nodes s.tree then
    let moves_considered := ops.child_nodes s.tree
    match ops.into_best_child s.tree with
    | .ok child =>
        if sendOk then
          .cont { tree := child.tree, do_move := false }
            [.Move { hold := child.hold, inputs := child.mv.inputs,
                     expected_location := child.mv.location },
             .BotInfo (commitInfo evalInfo (ops.depth child.tree)
               (ops.evaluation child.tree) moves_considered)]
        else .exit []
    | .error t => .cont { s with tree := t } []
  else .cont s []

/-- Lines 260–264: the growth phase, guarded by the node ceiling and a
non-empty future-piece queue; `extend` returning `true` means death. -/
def growthStep {T : Type} (ops : TreeOps T) (opts : Options) (t : T) :
    GrowthOut T :=
  if ops.child_nodes t < opts.max_nodes ∧ 0 < (ops.board t).next_queue.length then
    let r := ops.extend opts t
    if r.1 then .exit else .cont r.2
  else .cont t

/-- Folding the growth phase's outcome into the iteration outcome
(lines 260–264: `break` on death, otherwise continue with the grown
tree). -/
def growthToStep {T : Type} (rest : CtrlTrace) (s2 : LoopState T)
    (out : List BotResult) : GrowthOut T → StepOut T
  | .exit => .exit .deathOnGrowth out
  | .cont t2 => .cont { s2 with tree := t2 } rest out

/-- Folding the commit attempt's outcome into the iteration outcome: a
failed send returns from the loop at once (lines 240, 252), otherwise
the growth phase runs. -/
def commitToStep {T : Type} (ops : TreeOps T) (opts : Options)
    (rest : CtrlTrace) : CommitOut T → StepOut T
  | .exit out => .exit .sendFailed out
  | .cont s2 out => growthToStep rest s2 out (growthStep ops opts s2.tree)

/-- Folding the command application's outcome into the iteration
outcome: `break` emits nothing, otherwise the commit attempt runs. -/
def applyToStep {T : Type} (ops : TreeOps T) (opts : Options)
    (evalInfo : Info) (sendOk : Bool) (rest : CtrlTrace) : ApplyOut T → StepOut T
  | .exit r => .exit r []
  | .cont s1 => commitToStep ops opts rest (commitAttempt ops opts evalInfo sendOk s1)

/-- One iteration of the worker loop (lines 199–265): intake, command
application, commit attempt, growth, in that order. -/
def runStep {T : Type} (ops : TreeOps T) (opts : Options) (evalInfo : Info)
    (sendOk : Bool) (tr : CtrlTrace) (s : LoopState T) : StepOut T :=
  let received := intake ops opts s.tree tr
  applyToStep ops opts evalInfo sendOk received.2 (applyMsg ops s received.1)

/-- The worker loop, fuel-indexed: the emitted results in order, and the
exit reason (`none` when the fuel ran out with the loop still going). -/
def runLoop {T : Type} (ops : TreeOps T) (opts : Options) (evalInfo : Info)
    (sendOk : Bool) :
    Nat → CtrlTrace → LoopState T → List BotResult × Option ExitReason
  | 0, _, _ => ([], none)
  | fuel + 1, tr, s =>
      match runStep ops opts evalInfo sendOk tr s with
      | .exit r out => (out, some r)
      | .cont s2 tr2 out =>
          let rest := runLoop ops opts evalInfo sendOk fuel tr2 s2
          (out ++ rest.1, rest.2)

/-- `run` (lines 178–266): send the initial BotInfo (failure ignored via
`.ok()`), build the initial tree from the starting board, run the loop. -/
def run {T : Type} (ops : TreeOps T) (opts : Options) (evalInfo : Info)
    (sendOk : Bool) (fuel : Nat) (tr : CtrlTrace) (board : Board) :
    List BotResult × Option ExitReason :=
  let initialOut : List BotResult :=
    if sendOk then [.BotInfo (("Cold Clear", none) :: evalInfo)] else []
  let s0 : LoopState T := { tree := ops.new board, do_move := false }
  let r := runLoop ops opts evalInfo sendOk fuel tr s0
  (initialOut ++ r.1, r.2)

/-- The host-side view of the Result Channel: currently queued results
and whether the worker's sender has been dropped. -/
structure ResultChan where
  queue : List BotResult
  disconnected : Bool
deriving DecidableEq

/-- The `Interface` façade's own state (lines 37–42, channel endpoints
aside). -/
structure Interface where
  dead : Bool
  mv : Option Move
deriving DecidableEq

/-- The freshly launched handle (lines 53–55). -/
def Interface.launch : Interface :=
  { dead := false, mv := none }

/-- Lines 76–78. -/
def Interface.is_dead (i : Interface) : Bool :=
  i.dead

/-- The body of `poll_bot`'s drain loop: a later Move overwrites an
earlier one, BotInfo entries are discarded. -/
def keepMove (acc : Option Move) : BotResult → Option Move
  | .Move m => some m
  | .BotInfo _ => acc

/-- Lines 80–92: drain every available Result-Channel entry;
disconnection sets `dead`. Returns the updated handle and the drained
channel. -/
def Interface.poll_bot (i : Interface) (ch : ResultChan) :
    Interface × ResultChan :=
  ({ dead := i.dead || ch.disconnected, mv := ch.queue.foldl keepMove i.mv },
   { queue := [], disconnected := ch.disconnected })

/-- Lines 126–129: `poll_bot` then `self.mv.take()`. -/
def Interface.poll_next_move (i : Interface) (ch : ResultChan) :
    Option Move × Interface × ResultChan :=
  let r := Interface.poll_bot i ch
  (r.1.mv, { r.1 with mv := none }, r.2)

/-- A host-side operation on the handle. -/
inductive HostOp
  | request_next_move
  | add_next_piece (p : Piece)
  | reset (f : Field) (b2b : Bool) (combo : Nat)
  | misa_prepare_next_move
  | poll_next_move
deriving DecidableEq

/-- The channel circumstances a host operation runs under: whether the
Control Channel is closed (worker gone) and the current Result-Channel
contents. -/
structure HostEnv where
  ctrlClosed : Bool
  ch : ResultChan
deriving DecidableEq

/-- One host operation on the handle (lines 68–72, 112–116, 136–140,
152–158, 126–129): a send on a closed Control Channel sets `dead`
rather than failing. -/
def hostStep (i : Interface) (op : HostOp) (env : HostEnv) : Interface :=
  match op with
  | .request_next_move => if env.ctrlClosed then { i with dead := true } else i
  | .add_next_piece _ => if env.ctrlClosed then { i with dead := true } else i
  | .reset _ _ _ => if env.ctrlClosed then { i with dead := true } else i
  | .misa_prepare_next_move => if env.ctrlClosed then { i with dead := true } else i
  | .poll_next_move => (Interface.poll_next_move i env.ch).2.1

/-- Modelled from the spec: non-blocking intake — "take the next queued
command if any, otherwise proceed immediately". -/
def recvNonBlockingSpec (tr : CtrlTrace) : RecvResult × CtrlTrace :=
  match tr with
  | some m :: rest => (.Ok m, rest)
  | none :: rest => (.Empty, rest)
  | [] => (.Disconnected, [])

/-- Modelled from the spec: blocking intake — "the loop suspends until a
command arrives or the Control Channel is permanently closed". -/
def recvBlockingSpec (tr : CtrlTrace) : RecvResult × CtrlTrace :=
  match tr.dropWhile Option.isNone with
  | some m :: rest => (.Ok m, rest)
  | _ => (.Disconnected, [])

/-- Modelled from the spec: "keeping the most recently received Move" —
the last Move entry of a result list, if any. -/
def lastMove : List BotResult → Option Move
  | [] => none
  | .Move m :: rest =>
      match lastMove rest with
      | some m2 => some m2
      | none => some m
  | .BotInfo _ :: rest => lastMove rest

/-- The loop state after command application (the applied state when the
command continued the loop, the incoming state otherwise). -/
def postApply {T : Type} (ops : TreeOps T) (s : LoopState T)
    (res : RecvResult) : LoopState T :=
  match applyMsg ops s res with
  | .cont s1 => s1
  | .exit _ => s

/-- The loop state after the commit attempt. -/
def postCommit {T : Type} (ops : TreeOps T) (opts : Options)
    (evalInfo : Info) (sendOk : Bool) (s : LoopState T) : LoopState T :=
  match commitAttempt ops opts evalInfo sendOk s with
  | .cont s2 _ => s2
  | .exit _ => s

/-- Whether a Control-Channel trace contains no NewPiece command. -/
def noNewPiece (tr : CtrlTrace) : Bool :=
  tr.all fun x =>
    match x with
    | some (BotMsg.NewPiece _) => false
    | _ => true

/-- A counting tree used for concrete witnesses: a board plus a node
count; `extend` adds one node, a tree with at least one node is Ready
and commits to a fresh subtree over the same board. -/
def countOps : TreeOps (Board × Nat) where
  new b := (b, 0)
  child_nodes t := t.2
  board t := t.1
  add_next_piece t p :=
    (false, ({ t.1 with next_pieces := t.1.next_pieces ++ [p] }, t.2))
  extend _ t := (false, (t.1, t.2 + 1))
  into_best_child t :=
    if 1 ≤ t.2 then
      .ok { hold := false, mv := { inputs := [], location := 0 }, tree := (t.1, 0) }
    else .error t
  depth _ := 0
  evaluation _ := 0

/-- A sample board with one known future piece. -/
def sampleBoard : Board :=
  { field := [], b2b_bonus := false, combo := 0,
    next_pieces := [Piece.I], hold_piece := none }

/-- A sample board with no known future piece. -/
def emptyQueueBoard : Board :=
  { sampleBoard with next_pieces := [] }

/-- Sample configuration: quality floor 0, compute ceiling 1. -/
def sampleOpts : Options :=
  { mode := .ZeroG, use_hold := true, speculate := true,
    min_nodes := 0, max_nodes := 1 }

/-- Sample configuration with a higher ceiling. -/
def wideOpts : Options :=
  { mode := .ZeroG, use_hold := true, speculate := true,
    min_nodes := 0, max_nodes := 2 }

/-! ## Helper lemmas -/

theorem try_recv_eq_spec (tr : CtrlTrace) : try_recv tr = recvNonBlockingSpec tr := by
  match tr with
  | [] => rfl
  | none :: rest => rfl
  | some m :: rest => rfl

theorem recv_blocking_eq_spec (tr : CtrlTrace) :
    recv_blocking tr = recvBlockingSpec tr := by
  induction tr with
  | nil => rfl
  | cons x rest ih =>
      cases x with
      | none => simpa [recv_blocking, recvBlockingSpec, List.dropWhile] using ih
      | some m => rfl

theorem recv_blocking_ne_empty (tr : CtrlTrace) :
    (recv_blocking tr).1 ≠ .Empty := by
  induction tr with
  | nil => simp [recv_blocking]
  | cons x rest ih =>
      cases x with
      | none => simpa [recv_blocking] using ih
      | some m => simp [recv_blocking]

theorem foldl_keepMove (rs : List BotResult) (acc : Option Move) :
    rs.foldl keepMove acc =
      (match lastMove rs with
       | some m => some m
       | none => acc) := by
  induction rs generalizing acc with
  | nil => rfl
  | cons r rest ih =>
      cases r with
      | Move m =>
          rw [List.foldl_cons, ih]
          cases h : lastMove rest with
          | none => simp [lastMove, h, keepMove]
          | some m2 => simp [lastMove, h, keepMove]
      | BotInfo info =>
          rw [List.foldl_cons, ih]
          cases h : lastMove rest with
          | none => simp [lastMove, h, keepMove]
          | some m2 => simp [lastMove, h, keepMove]

theorem hostStep_dead_mono (i : Interface) (op : HostOp) (env : HostEnv)
    (h : i.dead = true) : (hostStep i op env).dead = true := by
  cases op with
  | request_next_move => by_cases hc : env.ctrlClosed <;> simp [hostStep, hc, h]
  | add_next_piece p => by_cases hc : env.ctrlClosed <;> simp [hostStep, hc, h]
  | reset f b2b combo => by_cases hc : env.ctrlClosed <;> simp [hostStep, hc, h]
  | misa_prepare_next_move =>
      by_cases hc : env.ctrlClosed <;> simp [hostStep, hc, h]
  | poll_next_move =>
      simp [hostStep, Interface.poll_next_move, Interface.poll_bot, h]

/-! ## Claims -/

/-- C1: in every iteration the command-intake mode is determined solely
by comparing the structure's node count to `max_nodes`: strictly below
the ceiling the receive is non-blocking (a pending command is taken if
one exists, otherwise the iteration proceeds without waiting), and at or
above the ceiling the receive blocks until a command arrives or the
Control Channel is permanently closed (it never reports Empty). -/
theorem intake_mode_budget_coupled {T : Type} (ops : TreeOps T)
    (opts : Options) (t : T) (tr : CtrlTrace) :
    (ops.child_nodes t < opts.max_nodes →
      intake ops opts t tr = recvNonBlockingSpec tr)
    ∧ (opts.max_nodes ≤ ops.child_nodes t →
      intake ops opts t tr = recvBlockingSpec tr ∧
        (intake ops opts t tr).1 ≠ .Empty)
    ∧ (∀ u : T, ops.child_nodes u = ops.child_nodes t →
      intake ops opts u tr = intake ops opts t tr) := by
  refine ⟨fun h => ?_, fun h => ?_, fun u hu => ?_⟩
  · rw [intake, if_pos h, try_recv_eq_spec]
  · have hnot : ¬ ops.child_nodes t < opts.max_nodes := not_lt.mpr h
    rw [intake, if_neg hnot]
    exact ⟨recv_blocking_eq_spec tr, recv_blocking_ne_empty tr⟩
  · rw [intake, intake, hu]

/-- Witness for C1 at a concrete state on both sides of the ceiling. -/
theorem intake_mode_budget_coupled_witness :
    intake countOps sampleOpts (sampleBoard, 0) [some BotMsg.NextMove] =
      recvNonBlockingSpec [some BotMsg.NextMove]
    ∧ intake countOps sampleOpts (sampleBoard, 1) [none, some BotMsg.NextMove] =
      recvBlockingSpec [none, some BotMsg.NextMove] :=
  ⟨(intake_mode_budget_coupled countOps sampleOpts (sampleBoard, 0)
      [some BotMsg.NextMove]).1 (by decide),
   ((intake_mode_budget_coupled countOps sampleOpts (sampleBoard, 1)
      [none, some BotMsg.NextMove]).2.1 (by decide)).1⟩

/-- C6: `poll_next_move` drains every currently available Result-Channel
entry, retains only the most recently received Move (BotInfo entries are
discarded), returns it while clearing the buffer, and a second call with
no intervening worker activity returns none. -/
theorem poll_next_move_drains_latest (i : Interface) (ch : ResultChan) :
    (Interface.poll_next_move i ch).1 =
      (match lastMove ch.queue with
       | some m => some m
       | none => i.mv)
    ∧ (Interface.poll_next_move i ch).2.1.mv = none
    ∧ (Interface.poll_next_move i ch).2.2.queue = []
    ∧ (Interface.poll_next_move (Interface.poll_next_move i ch).2.1
        (Interface.poll_next_move i ch).2.2).1 = none := by
  refine ⟨?_, rfl, rfl, ?_⟩
  · simp [Interface.poll_next_move, Interface.poll_bot, foldl_keepMove]
  · simp [Interface.poll_next_move, Interface.poll_bot]

/-- C7: the dead flag is sticky: every send-type Handle operation on a
closed Control Channel sets it, a disconnected Result Channel observed
while polling sets it, no operation resets it, and once `is_dead` is
true it stays true over any further operation sequence. -/
theorem dead_flag_sticky :
    (∀ (i : Interface) (env : HostEnv), env.ctrlClosed = true →
      (hostStep i .request_next_move env).dead = true
      ∧ (∀ p, (hostStep i (.add_next_piece p) env).dead = true)
      ∧ (∀ f b2b combo, (hostStep i (.reset f b2b combo) env).dead = true)
      ∧ (hostStep i .misa_prepare_next_move env).dead = true)
    ∧ (∀ (i : Interface) (env : HostEnv), env.ch.disconnected = true →
      (hostStep i .poll_next_move env).dead = true)
    ∧ (∀ (i : Interface) (op : HostOp) (env : HostEnv),
      Interface.is_dead i = true → Interface.is_dead (hostStep i op env) = true)
    ∧ (∀ (i : Interface) (steps : List (HostOp × HostEnv)),
      Interface.is_dead i = true →
      Interface.is_dead
        (steps.foldl (fun j oe => hostStep j oe.1 oe.2) i) = true) := by
  refine ⟨fun i env h => ?_, fun i env h => ?_, fun i op env h => ?_,
    fun i steps => ?_⟩
  · exact ⟨by simp [hostStep, h], fun p => by simp [hostStep, h],
      fun f b2b combo => by simp [hostStep, h], by simp [hostStep, h]⟩
  · simp [hostStep, Interface.poll_next_move, Interface.poll_bot, h]
  · exact hostStep_dead_mono i op env h
  · induction steps generalizing i with
    | nil => exact fun h => h
    | cons oe rest ih =>
        intro h
        exact ih _ (hostStep_dead_mono i oe.1 oe.2 h)

/-- Witness for C7 at concrete handles. -/
theorem dead_flag_sticky_witness :
    (hostStep Interface.launch HostOp.request_next_move
      { ctrlClosed := true, ch := { queue := [], disconnected := false } }).dead = true
    ∧ Interface.is_dead
        ([(HostOp.misa_prepare_next_move,
            ({ ctrlClosed := false, ch := { queue := [], disconnected := false } } : HostEnv)),
          (HostOp.poll_next_move,
            ({ ctrlClosed := false, ch := { queue := [], disconnected := false } } : HostEnv))].foldl
          (fun j oe => hostStep j oe.1 oe.2) { dead := true, mv := none }) = true :=
  ⟨(dead_flag_sticky.1 Interface.launch
      { ctrlClosed := true, ch := { queue := [], disconnected := false } } rfl).1,
   dead_flag_sticky.2.2.2 { dead := true, mv := none }
     [(HostOp.misa_prepare_next_move,
        { ctrlClosed := false, ch := { queue := [], disconnected := false } }),
      (HostOp.poll_next_move,
        { ctrlClosed := false, ch := { queue := [], disconnected := false } })] rfl⟩

/-- C10: a buffered Move survives worker death: when the Result Channel
is disconnected but a Move is retained (queued or already buffered),
`poll_next_move` still returns it, on the very call that sets the dead
flag. -/
theorem buffered_move_survives_death (i : Interface) (ch : ResultChan)
    (m : Move) (hdc : ch.disconnected = true)
    (hm : (match lastMove ch.queue with
           | some m2 => some m2
           | none => i.mv) = some m) :
    (Interface.poll_next_move i ch).1 = some m
    ∧ Interface.is_dead (Interface.poll_next_move i ch).2.1 = true := by
  constructor
  · rw [show (Interface.poll_next_move i ch).1 = ch.queue.foldl keepMove i.mv from rfl,
      foldl_keepMove]
    exact hm
  · simp [Interface.poll_next_move, Interface.poll_bot, Interface.is_dead, hdc]

/-- Witness for C10: a queued Move behind a BotInfo entry on a
disconnected channel is still delivered while `dead` becomes true. -/
theorem buffered_move_survives_death_witness :
    (Interface.poll_next_move Interface.launch
      { queue := [BotResult.BotInfo [],
                  BotResult.Move { hold := false, inputs := [1], expected_location := 2 }],
        disconnected := true }).1 =
      some { hold := false, inputs := [1], expected_location := 2 }
    ∧ Interface.is_dead
        (Interface.poll_next_move Interface.launch
          { queue := [BotResult.BotInfo [],
                      BotResult.Move { hold := false, inputs := [1], expected_location := 2 }],
            disconnected := true }).2.1 = true :=
  buffered_move_survives_death Interface.launch
    { queue := [BotResult.BotInfo [],
                BotResult.Move { hold := false, inputs := [1], expected_location := 2 }],
      disconnected := true }
    { hold := false, inputs := [1], expected_location := 2 } rfl (by decide)

/-! ## Worker-loop helper lemmas -/

theorem runStep_output_eq {T : Type} (ops : TreeOps T) (opts : Options)
    (evalInfo : Info) (sendOk : Bool) (tr : CtrlTrace) (s : LoopState T) :
    (runStep ops opts evalInfo sendOk tr s).output =
      (match applyMsg ops s (intake ops opts s.tree tr).1 with
       | .exit _ => []
       | .cont s1 => (commitAttempt ops opts evalInfo sendOk s1).output) := by
  simp only [runStep]
  cases happly : applyMsg ops s (intake ops opts s.tree tr).1 with
  | exit r => simp [applyToStep, StepOut.output]
  | cont s1 =>
      simp only [applyToStep]
      cases hcommit : commitAttempt ops opts evalInfo sendOk s1 with
      | exit out => simp [commitToStep, StepOut.output, CommitOut.output]
      | cont s2 out =>
          simp only [commitToStep]
          cases hgrow : growthStep ops opts s2.tree with
          | exit => simp [growthToStep, StepOut.output, CommitOut.output]
          | cont t2 => simp [growthToStep, StepOut.output, CommitOut.output]

theorem commit_move_guard {T : Type} (ops : TreeOps T) (opts : Options)
    (evalInfo : Info) (sendOk : Bool) (s : LoopState T) (m : Move)
    (hm : BotResult.Move m ∈ (commitAttempt ops opts evalInfo sendOk s).output) :
    s.do_move = true ∧ opts.min_nodes < ops.child_nodes s.tree := by
  by_cases h : s.do_move = true ∧ opts.min_nodes < ops.child_nodes s.tree
  · exact h
  · unfold commitAttempt at hm
    rw [if_neg h] at hm
    simp [CommitOut.output] at hm

theorem applyMsg_exit_inv {T : Type} (ops : TreeOps T) (s : LoopState T)
    (res : RecvResult) (r : ExitReason) (h : applyMsg ops s res = .exit r) :
    (res = .Disconnected ∧ r = .chanClosed) ∨ r = .deathOnPiece := by
  cases res with
  | Empty => simp [applyMsg] at h
  | Disconnected =>
      simp only [applyMsg] at h
      injection h with h2
      exact Or.inl ⟨rfl, h2.symm⟩
  | Ok msg =>
      cases msg with
      | NewPiece p =>
          simp only [applyMsg] at h
          split at h
          · injection h with h2
            exact Or.inr h2.symm
          · simp at h
      | Reset f b2b combo => simp [applyMsg] at h
      | NextMove => simp [applyMsg] at h
      | PrepareNextMove => simp [applyMsg] at h

/-- C2: a Move result is never emitted while the structure's node count
is at or below `min_nodes`: whenever an iteration's output contains a
Move, the state the commit attempt ran on had the pending-commit flag
set and a node count strictly above the quality floor. -/
theorem no_move_at_or_below_floor {T : Type} (ops : TreeOps T)
    (opts : Options) (evalInfo : Info) (sendOk : Bool) (tr : CtrlTrace)
    (s : LoopState T) (m : Move)
    (hm : BotResult.Move m ∈ (runStep ops opts evalInfo sendOk tr s).output) :
    (postApply ops s (intake ops opts s.tree tr).1).do_move = true
    ∧ opts.min_nodes <
        ops.child_nodes (postApply ops s (intake ops opts s.tree tr).1).tree := by
  rw [runStep_output_eq] at hm
  cases happly : applyMsg ops s (intake ops opts s.tree tr).1 with
  | exit r =>
      rw [happly] at hm
      simp at hm
  | cont s1 =>
      rw [happly] at hm
      have h := commit_move_guard ops opts evalInfo sendOk s1 m hm
      simpa [postApply, happly] using h

/-- Witness for C2 at a concrete committing iteration. -/
theorem no_move_at_or_below_floor_witness :
    (postApply countOps { tree := ((sampleBoard, 1) : Board × Nat), do_move := true }
        (intake countOps wideOpts ((sampleBoard, 1) : Board × Nat) [none]).1).do_move = true
    ∧ wideOpts.min_nodes <
        countOps.child_nodes
          (postApply countOps { tree := ((sampleBoard, 1) : Board × Nat), do_move := true }
            (intake countOps wideOpts ((sampleBoard, 1) : Board × Nat) [none]).1).tree :=
  no_move_at_or_below_floor countOps wideOpts [] true [none]
    { tree := (sampleBoard, 1), do_move := true }
    { hold := false, inputs := [], expected_location := 0 } (by decide)

theorem countOps_notReady_eq (t t2 : Board × Nat)
    (h : countOps.into_best_child t = .error t2) : t2 = t := by
  by_cases h1 : 1 ≤ t.2
  · simp [countOps, h1] at h
  · simp [countOps, h1] at h
    exact h.symm

/-- C3: a commit attempt has exactly two outcomes. On Ready(child) the
pending flag is cleared, the Move then a diagnostics entry carrying the
child's depth, its evaluation and the node count considered (in that
order) are emitted, and the structure becomes the child's subtree; on
NotReady nothing is emitted, the flag stays set, and (by the Decision
Structure contract that NotReady returns the structure unchanged) the
structure is unchanged. -/
theorem commit_attempt_outcomes {T : Type} (ops : TreeOps T) (opts : Options)
    (evalInfo : Info) (sendOk : Bool) (s : LoopState T)
    (hwf : ∀ t t2, ops.into_best_child t = .error t2 → t2 = t)
    (hdo : s.do_move = true)
    (hmin : opts.min_nodes < ops.child_nodes s.tree) :
    (∀ child : Child T, ops.into_best_child s.tree = .ok child → sendOk = true →
      commitAttempt ops opts evalInfo sendOk s =
        .cont { tree := child.tree, do_move := false }
          [.Move { hold := child.hold, inputs := child.mv.inputs,
                   expected_location := child.mv.location },
           .BotInfo (commitInfo evalInfo (ops.depth child.tree)
             (ops.evaluation child.tree) (ops.child_nodes s.tree))]
      ∧ List.Sublist
          [(("Depth" : String), some (toString (ops.depth child.tree))),
           (("" : String), some (toString (ops.evaluation child.tree))),
           (("" : String), some (toString (ops.child_nodes s.tree)))]
          (commitInfo evalInfo (ops.depth child.tree)
            (ops.evaluation child.tree) (ops.child_nodes s.tree)))
    ∧ (∀ t2 : T, ops.into_best_child s.tree = .error t2 →
      commitAttempt ops opts evalInfo sendOk s = .cont s []) := by
  constructor
  · intro child hch hsend
    subst hsend
    constructor
    · simp [commitAttempt, hdo, hmin, hch]
    · unfold commitInfo
      refine List.Sublist.trans ?_ (List.sublist_append_right _ _)
      exact List.Sublist.cons₂ _ (List.Sublist.cons _ (List.Sublist.cons₂ _
        (List.Sublist.cons _ (List.Sublist.cons₂ _ List.Sublist.slnil))))
  · intro t2 ht2
    have heq := hwf _ _ ht2
    subst heq
    unfold commitAttempt
    rw [if_pos (And.intro hdo hmin), ht2]

/-- Witness for C3 at a concrete Ready commit. -/
theorem commit_attempt_outcomes_witness :
    commitAttempt countOps sampleOpts [] true
        { tree := ((sampleBoard, 1) : Board × Nat), do_move := true } =
      CommitOut.cont { tree := (sampleBoard, 0), do_move := false }
        [BotResult.Move { hold := false, inputs := [], expected_location := 0 },
         BotResult.BotInfo (commitInfo [] (countOps.depth (sampleBoard, 0))
           (countOps.evaluation (sampleBoard, 0))
           (countOps.child_nodes (sampleBoard, 1)))] :=
  ((commit_attempt_outcomes countOps sampleOpts [] true
      { tree := (sampleBoard, 1), do_move := true }
      countOps_notReady_eq rfl (by decide)).1
    { hold := false, mv := { inputs := [], location := 0 }, tree := (sampleBoard, 0) }
    rfl rfl).1

/-- C4: the worker loop exits exactly when the Control Channel is found
disconnected, piece incorporation reports death, a Result-Channel send
fails during the commit attempt, or the growth step reports death; a
send failure ends the iteration immediately with `sendFailed` (no growth
runs), and in the absence of all four conditions the iteration
continues. -/
theorem loop_exit_characterization {T : Type} (ops : TreeOps T)
    (opts : Options) (evalInfo : Info) (sendOk : Bool) (tr : CtrlTrace)
    (s : LoopState T) :
    ((runStep ops opts evalInfo sendOk tr s).isExit = true ↔
      ((intake ops opts s.tree tr).1 = .Disconnected
       ∨ applyMsg ops s (intake ops opts s.tree tr).1 = .exit .deathOnPiece
       ∨ ((applyMsg ops s (intake ops opts s.tree tr).1).isExit = false ∧
           (commitAttempt ops opts evalInfo sendOk
             (postApply ops s (intake ops opts s.tree tr).1)).isExit = true)
       ∨ ((applyMsg ops s (intake ops opts s.tree tr).1).isExit = false ∧
           (commitAttempt ops opts evalInfo sendOk
             (postApply ops s (intake ops opts s.tree tr).1)).isExit = false ∧
           growthStep ops opts
             (postCommit ops opts evalInfo sendOk
               (postApply ops s (intake ops opts s.tree tr).1)).tree = .exit)))
    ∧ (∀ out, (applyMsg ops s (intake ops opts s.tree tr).1).isExit = false →
        commitAttempt ops opts evalInfo sendOk
          (postApply ops s (intake ops opts s.tree tr).1) = .exit out →
        runStep ops opts evalInfo sendOk tr s = .exit .sendFailed out) := by
  constructor
  · constructor
    · intro hx
      simp only [runStep] at hx
      cases happly : applyMsg ops s (intake ops opts s.tree tr).1 with
      | exit r =>
          rcases applyMsg_exit_inv ops s _ r happly with ⟨hd, hr⟩ | hr
          · exact Or.inl hd
          · subst hr
            exact Or.inr (Or.inl rfl)
      | cont s1 =>
          rw [happly] at hx
          simp only [applyToStep] at hx
          cases hcommit : commitAttempt ops opts evalInfo sendOk s1 with
          | exit out =>
              refine Or.inr (Or.inr (Or.inl ⟨rfl, ?_⟩))
              simp [postApply, happly, hcommit, CommitOut.isExit]
          | cont s2 out =>
              rw [hcommit] at hx
              simp only [commitToStep] at hx
              cases hgrow : growthStep ops opts s2.tree with
              | exit =>
                  refine Or.inr (Or.inr (Or.inr ⟨rfl, ?_, ?_⟩))
                  · simp [postApply, happly, hcommit, CommitOut.isExit]
                  · simp only [postApply, happly, postCommit, hcommit]
                    exact hgrow
              | cont t2 =>
                  rw [hgrow] at hx
                  simp [growthToStep, StepOut.isExit] at hx
    · intro hx
      rcases hx with hd | hp | ⟨ha, hc⟩ | ⟨ha, hc, hg⟩
      · simp [runStep, hd, applyMsg, applyToStep, StepOut.isExit]
      · simp [runStep, hp, applyToStep, StepOut.isExit]
      · cases happly : applyMsg ops s (intake ops opts s.tree tr).1 with
        | exit r =>
            rw [happly] at ha
            simp [ApplyOut.isExit] at ha
        | cont s1 =>
            simp only [postApply, happly] at hc
            cases hcommit : commitAttempt ops opts evalInfo sendOk s1 with
            | cont s2 out =>
                rw [hcommit] at hc
                simp [CommitOut.isExit] at hc
            | exit out =>
                simp [runStep, happly, applyToStep, hcommit, commitToStep,
                  StepOut.isExit]
      · cases happly : applyMsg ops s (intake ops opts s.tree tr).1 with
        | exit r =>
            rw [happly] at ha
            simp [ApplyOut.isExit] at ha
        | cont s1 =>
            simp only [postApply, happly] at hc hg
            cases hcommit : commitAttempt ops opts evalInfo sendOk s1 with
            | exit out =>
                rw [hcommit] at hc
                simp [CommitOut.isExit] at hc
            | cont s2 out =>
                simp only [postCommit, hcommit] at hg
                simp [runStep, happly, applyToStep, hcommit, commitToStep, hg,
                  growthToStep, StepOut.isExit]
  · intro out ha hc
    cases happly : applyMsg ops s (intake ops opts s.tree tr).1 with
    | exit r =>
        rw [happly] at ha
        simp [ApplyOut.isExit] at ha
    | cont s1 =>
        simp only [postApply, happly] at hc
        simp [runStep, happly, applyToStep, hc, commitToStep]

/-- Witness for C4: a closed control channel makes the iteration exit. -/
theorem loop_exit_characterization_witness :
    (runStep countOps sampleOpts [] true []
      { tree := ((sampleBoard, 0) : Board × Nat), do_move := false }).isExit = true :=
  (loop_exit_characterization countOps sampleOpts [] true []
    { tree := (sampleBoard, 0), do_move := false }).1.mpr (Or.inl (by decide))

/-- C8: applying Reset(field, b2b, combo) replaces the structure with a
fresh one rooted at the old structure's board with exactly the field,
back-to-back flag and combo overwritten; the queue and hold slot are
carried over unchanged, the new root state is exactly that board, and
the accumulated exploration is discarded (node count back to the fresh
baseline). -/
theorem reset_semantics {T : Type} (ops : TreeOps T) (s : LoopState T)
    (f : Field) (b2b : Bool) (combo : Nat)
    (hb : ∀ b, ops.board (ops.new b) = b)
    (hn : ∀ b, ops.child_nodes (ops.new b) = 0) :
    applyMsg ops s (.Ok (.Reset f b2b combo)) =
      .cont { s with tree := ops.new (resetBoard (ops.board s.tree) f b2b combo) }
    ∧ (resetBoard (ops.board s.tree) f b2b combo).field = f
    ∧ (resetBoard (ops.board s.tree) f b2b combo).b2b_bonus = b2b
    ∧ (resetBoard (ops.board s.tree) f b2b combo).combo = combo
    ∧ (resetBoard (ops.board s.tree) f b2b combo).next_pieces =
        (ops.board s.tree).next_pieces
    ∧ (resetBoard (ops.board s.tree) f b2b combo).hold_piece =
        (ops.board s.tree).hold_piece
    ∧ ops.board (ops.new (resetBoard (ops.board s.tree) f b2b combo)) =
        resetBoard (ops.board s.tree) f b2b combo
    ∧ ops.child_nodes (ops.new (resetBoard (ops.board s.tree) f b2b combo)) = 0 :=
  ⟨rfl, rfl, rfl, rfl, rfl, rfl, hb _, hn _⟩

/-- Witness for C8 at a concrete reset. -/
theorem reset_semantics_witness :
    (resetBoard (countOps.board ((sampleBoard, 3) : Board × Nat)) [[true]] true 5).next_pieces =
      (countOps.board ((sampleBoard, 3) : Board × Nat)).next_pieces
    ∧ countOps.child_nodes
        (countOps.new (resetBoard (countOps.board ((sampleBoard, 3) : Board × Nat))
          [[true]] true 5)) = 0 :=
  ⟨(reset_semantics countOps { tree := (sampleBoard, 3), do_move := false }
      [[true]] true 5 (fun _ => rfl) (fun _ => rfl)).2.2.2.2.1,
   (reset_semantics countOps { tree := (sampleBoard, 3), do_move := false }
      [[true]] true 5 (fun _ => rfl) (fun _ => rfl)).2.2.2.2.2.2.2⟩

/-- C9 (amended): applying PrepareNextMove emits nothing and changes no
worker state, and below the compute ceiling its arrival is observably
identical to an empty poll; the removal claim is refuted separately,
since any received command wakes a worker blocked at the ceiling and a
commit attempt then runs. -/
theorem prepare_next_move_no_op {T : Type} (ops : TreeOps T) (opts : Options)
    (evalInfo : Info) (sendOk : Bool) (s : LoopState T) (tr : CtrlTrace) :
    applyMsg ops s (.Ok .PrepareNextMove) = .cont s
    ∧ (ops.child_nodes s.tree < opts.max_nodes →
      runStep ops opts evalInfo sendOk (some BotMsg.PrepareNextMove :: tr) s =
        runStep ops opts evalInfo sendOk (none :: tr) s) := by
  refine ⟨rfl, fun h => ?_⟩
  simp [runStep, intake, h, try_recv, applyMsg]

/-- Witness for C9's amended statement below the ceiling. -/
theorem prepare_next_move_no_op_witness :
    runStep countOps sampleOpts [] true [some BotMsg.PrepareNextMove]
        { tree := ((sampleBoard, 0) : Board × Nat), do_move := false } =
      runStep countOps sampleOpts [] true [none]
        { tree := ((sampleBoard, 0) : Board × Nat), do_move := false } :=
  (prepare_next_move_no_op countOps sampleOpts [] true
    { tree := (sampleBoard, 0), do_move := false } []).2 (by decide)

/-- Counterexample to C9 as stated: with quality floor 0 and ceiling 1,
the command sequence NextMove, PrepareNextMove makes the worker (blocked
at the ceiling) wake on the PrepareNextMove and commit a Move, while the
same sequence with the PrepareNextMove removed produces no Move at all —
the observable results differ. -/
theorem prepare_removal_observable :
    (run countOps sampleOpts [] true 3
        [some BotMsg.NextMove, some BotMsg.PrepareNextMove] sampleBoard).1 ≠
      (run countOps sampleOpts [] true 3 [some BotMsg.NextMove] sampleBoard).1 := by
  decide

/-! ## No-new-piece trace lemmas (for C5) -/

theorem try_recv_no_new (tr : CtrlTrace) (h : noNewPiece tr = true) :
    noNewPiece (try_recv tr).2 = true ∧
      ∀ p, (try_recv tr).1 ≠ .Ok (.NewPiece p) := by
  match tr with
  | [] => exact ⟨rfl, by simp [try_recv]⟩
  | none :: rest =>
      simp only [noNewPiece, List.all_cons, Bool.and_eq_true] at h
      exact ⟨h.2, by simp [try_recv]⟩
  | some m :: rest =>
      simp only [noNewPiece, List.all_cons, Bool.and_eq_true] at h
      refine ⟨h.2, fun p hq => ?_⟩
      simp only [try_recv, RecvResult.Ok.injEq] at hq
      subst hq
      simp at h

theorem recv_blocking_no_new (tr : CtrlTrace) (h : noNewPiece tr = true) :
    noNewPiece (recv_blocking tr).2 = true ∧
      ∀ p, (recv_blocking tr).1 ≠ .Ok (.NewPiece p) := by
  induction tr with
  | nil => exact ⟨rfl, by simp [recv_blocking]⟩
  | cons x rest ih =>
      simp only [noNewPiece, List.all_cons, Bool.and_eq_true] at h
      cases x with
      | none =>
          simpa [recv_blocking] using ih h.2
      | some m =>
          refine ⟨h.2, fun p hq => ?_⟩
          simp only [recv_blocking, RecvResult.Ok.injEq] at hq
          subst hq
          simp at h

theorem intake_no_new {T : Type} (ops : TreeOps T) (opts : Options) (t : T)
    (tr : CtrlTrace) (h : noNewPiece tr = true) :
    noNewPiece (intake ops opts t tr).2 = true ∧
      ∀ p, (intake ops opts t tr).1 ≠ .Ok (.NewPiece p) := by
  rw [intake]
  split
  · exact try_recv_no_new tr h
  · exact recv_blocking_no_new tr h

theorem stuck_state_core {T : Type} (ops : TreeOps T) (opts : Options)
    (evalInfo : Info) (sendOk : Bool) (s1 : LoopState T)
    (h0 : ops.child_nodes s1.tree = 0)
    (hq : (ops.board s1.tree).next_pieces = []) :
    commitAttempt ops opts evalInfo sendOk s1 = .cont s1 []
    ∧ growthStep ops opts s1.tree = .cont s1.tree := by
  have hc : ¬ (s1.do_move = true ∧ opts.min_nodes < ops.child_nodes s1.tree) := by
    rintro ⟨-, hlt⟩
    rw [h0] at hlt
    exact Nat.not_lt_zero _ hlt
  have hg : ¬ (ops.child_nodes s1.tree < opts.max_nodes ∧
      0 < (ops.board s1.tree).next_queue.length) := by
    rintro ⟨-, hlen⟩
    rw [Board.next_queue, hq] at hlen
    simp at hlen
  constructor
  · unfold commitAttempt
    rw [if_neg hc]
  · unfold growthStep
    rw [if_neg hg]

theorem stuck_runStep {T : Type} (ops : TreeOps T) (opts : Options)
    (evalInfo : Info) (sendOk : Bool)
    (hb : ∀ b, ops.board (ops.new b) = b)
    (hn : ∀ b, ops.child_nodes (ops.new b) = 0)
    (tr : CtrlTrace) (s : LoopState T)
    (htr : noNewPiece tr = true)
    (h0 : ops.child_nodes s.tree = 0)
    (hq : (ops.board s.tree).next_pieces = []) :
    runStep ops opts evalInfo sendOk tr s = .exit .chanClosed []
    ∨ ∃ s2 : LoopState T,
        runStep ops opts evalInfo sendOk tr s =
          .cont s2 (intake ops opts s.tree tr).2 []
        ∧ ops.child_nodes s2.tree = 0
        ∧ (ops.board s2.tree).next_pieces = [] := by
  obtain ⟨htr2, hnp⟩ := intake_no_new ops opts s.tree tr htr
  cases hres : (intake ops opts s.tree tr).1 with
  | Disconnected =>
      left
      simp [runStep, hres, applyMsg, applyToStep]
  | Empty =>
      right
      refine ⟨s, ?_, h0, hq⟩
      obtain ⟨hc, hg⟩ := stuck_state_core ops opts evalInfo sendOk s h0 hq
      simp [runStep, hres, applyMsg, applyToStep, commitToStep, hc, hg,
        growthToStep]
  | Ok msg =>
      cases msg with
      | NewPiece p => exact absurd hres (hnp p)
      | PrepareNextMove =>
          right
          refine ⟨s, ?_, h0, hq⟩
          obtain ⟨hc, hg⟩ := stuck_state_core ops opts evalInfo sendOk s h0 hq
          simp [runStep, hres, applyMsg, applyToStep, commitToStep, hc, hg,
            growthToStep]
      | NextMove =>
          right
          refine ⟨{ s with do_move := true }, ?_, h0, hq⟩
          obtain ⟨hc, hg⟩ :=
            stuck_state_core ops opts evalInfo sendOk { s with do_move := true } h0 hq
          simp [runStep, hres, applyMsg, applyToStep, commitToStep, hc, hg,
            growthToStep]
      | Reset f b2b combo =>
          right
          have hq2 : (ops.board (ops.new
              (resetBoard (ops.board s.tree) f b2b combo))).next_pieces = [] := by
            rw [hb _]
            simpa [resetBoard, Board.set_field] using hq
          refine ⟨{ s with tree := ops.new (resetBoard (ops.board s.tree) f b2b combo) },
            ?_, hn _, hq2⟩
          obtain ⟨hc, hg⟩ := stuck_state_core ops opts evalInfo sendOk
            { s with tree := ops.new (resetBoard (ops.board s.tree) f b2b combo) }
            (hn _) hq2
          simp [runStep, hres, applyMsg, applyToStep, commitToStep, hc, hg,
            growthToStep]

theorem stuck_runLoop {T : Type} (ops : TreeOps T) (opts : Options)
    (evalInfo : Info) (sendOk : Bool)
    (hb : ∀ b, ops.board (ops.new b) = b)
    (hn : ∀ b, ops.child_nodes (ops.new b) = 0) :
    ∀ (fuel : Nat) (tr : CtrlTrace) (s : LoopState T),
      noNewPiece tr = true →
      ops.child_nodes s.tree = 0 →
      (ops.board s.tree).next_pieces = [] →
      (runLoop ops opts evalInfo sendOk fuel tr s).1 = [] := by
  intro fuel
  induction fuel with
  | zero => intro tr s _ _ _; rfl
  | succ n ih =>
      intro tr s htr h0 hq
      rcases stuck_runStep ops opts evalInfo sendOk hb hn tr s htr h0 hq with
        hstep | ⟨s2, hstep, h02, hq2⟩
      · simp [runLoop, hstep]
      · have htr2 := (intake_no_new ops opts s.tree tr htr).1
        simp [runLoop, hstep, ih _ _ htr2 h02 hq2]

/-- C5: the growth step runs only when the node count is strictly below
`max_nodes` and the known next-piece queue is non-empty (otherwise the
tree is untouched and the loop does not exit there); consequently,
started on a board with an empty queue and fed any command trace that
contains no NewPiece, the worker never emits a Move, whatever
`min_nodes` is — in particular with `min_nodes = 0`. -/
theorem growth_gate_no_move_without_piece {T : Type} (ops : TreeOps T)
    (opts : Options) (evalInfo : Info) (sendOk : Bool)
    (hb : ∀ b, ops.board (ops.new b) = b)
    (hn : ∀ b, ops.child_nodes (ops.new b) = 0) :
    (∀ t : T,
      ¬(ops.child_nodes t < opts.max_nodes ∧ 0 < (ops.board t).next_queue.length) →
      growthStep ops opts t = .cont t)
    ∧ (∀ (fuel : Nat) (tr : CtrlTrace) (b : Board),
      noNewPiece tr = true → b.next_pieces = [] →
      ∀ m : Move, BotResult.Move m ∉ (run ops opts evalInfo sendOk fuel tr b).1) := by
  constructor
  · intro t h
    unfold growthStep
    rw [if_neg h]
  · intro fuel tr b htr hqb m hmem
    have h1 : (runLoop ops opts evalInfo sendOk fuel tr
        { tree := ops.new b, do_move := false }).1 = [] :=
      stuck_runLoop ops opts evalInfo sendOk hb hn fuel tr _ htr (hn b)
        (by rw [hb b]; exact hqb)
    simp only [run] at hmem
    rw [h1, List.append_nil] at hmem
    cases sendOk with
    | false => simp at hmem
    | true => simp at hmem

/-- Witness for C5: a NextMove-first trace over an empty queue yields no
Move. -/
theorem growth_gate_no_move_without_piece_witness :
    BotResult.Move { hold := false, inputs := [], expected_location := 0 } ∉
      (run countOps sampleOpts [] true 4
        [some BotMsg.NextMove, none, some BotMsg.PrepareNextMove]
        emptyQueueBoard).1 :=
  (growth_gate_no_move_without_piece countOps sampleOpts [] true
      (fun _ => rfl) (fun _ => rfl)).2 4
    [some BotMsg.NextMove, none, some BotMsg.PrepareNextMove] emptyQueueBoard
    (by decide) rfl { hold := false, inputs := [], expected_location := 0 }

end ColdClear
